import Mathlib

/-!
# Verification of the flutter_pcm_sound Linux plugin engine

Shallow embedding of `src/linux/flutter_pcm_sound_plugin.cc`: the plugin
instance state (`struct _FlutterPcmSoundPlugin`), the method-call handlers
`setup_alsa`, `feed_alsa`, `release_alsa`, the `setFeedThreshold` branch of
`flutter_pcm_sound_plugin_handle_method_call`, and the playback worker
`playback_thread_func`, modelled as a step function over explicit state
with an event trace.  Machine integers are modelled as `Int`/`Nat` with the
C conversions made explicit (`toSizeT` below).  The ALSA device is an
oracle parameter; every device call made by the code is recorded in a
trace so that "performs no device I/O" is a statement about the trace.
-/

namespace PcmSound

/-- A PCM byte.  Values are opaque to the engine; `Nat` suffices. -/
abbrev Byte := Nat

/-- Responses produced by the method handlers (`fl_method_success_response_new`
with a boolean payload, `fl_method_error_response_new` with a code string, or
the not-implemented response).  Error codes are the literal strings of the
source: `"NOT_INITIALIZED"`, `"DEBUG"` (the missing-argument branch of
`setup_alsa` — the spec's `MissingArgs`), `"ALSA_ERROR"` (the spec's
`ConfigError`), `"INVALID_ARGS"`. -/
inductive FlResponse where
  | success (value : Bool)
  | error (code : String)
  | notImplemented
deriving DecidableEq, Repr

/-- The plugin instance state, mirroring `struct _FlutterPcmSoundPlugin`.
`handle : Bool` models `snd_pcm_t* handle` being non-NULL;
`playback_thread : Bool` models `std::thread* playback_thread` being
non-null.  The `samples` vector is a byte list; the mutex is implicit in the
sequential interleaving semantics (every locked region is one atomic step). -/
structure Plugin where
  handle : Bool
  sample_rate : Int
  channels : Int
  feed_threshold : Int
  did_invoke_feed_callback : Bool
  samples : List Byte
  should_stop : Bool
  playback_thread : Bool
deriving DecidableEq, Repr

/-- `flutter_pcm_sound_plugin_init` together with GObject zero-initialisation
of the remaining fields (`sample_rate`, `channels` are not assigned there;
`g_object_new` zeroes the instance memory). -/
def initPlugin : Plugin :=
  { handle := false
    sample_rate := 0
    channels := 0
    feed_threshold := 1024
    did_invoke_feed_callback := false
    samples := []
    should_stop := false
    playback_thread := false }

/-- C usual-arithmetic conversion of a signed `int` value to `size_t`
(64-bit unsigned): reduction modulo 2^64.  Used where the source compares or
multiplies an `int` against a `size_t` (`remaining_frames <=
self->feed_threshold`, `frames_per_write * self->channels * 2`,
`self->samples.size() / (self->channels * 2)`). -/
def toSizeT (x : Int) : Nat := (x % (2 : Int) ^ 64).toNat

/-- `fl_value_get_uint8_list` applied to the result of
`fl_value_lookup_string(args, "buffer")`.  `none` models a null `FlValue*`:
`feed_alsa` performs no null check, and glib's `g_return_val_if_fail`
precondition-failure path makes the extraction return a null pointer,
i.e. no bytes. -/
def fl_value_get_uint8_list : Option (List Byte) → List Byte
  | none => []
  | some bs => bs

/-- `fl_value_get_length` on the same possibly-null value; on the glib
precondition-failure path the length is 0. -/
def fl_value_get_length : Option (List Byte) → Nat
  | none => 0
  | some bs => bs.length

/-- `feed_alsa`.  The `buffer` argument is the lookup result for the
`"buffer"` key (`none` = key absent / null value; the source has no branch
on it).  Returns the method response and the new state. -/
def feed_alsa (s : Plugin) (buffer : Option (List Byte)) : FlResponse × Plugin :=
  if s.handle = false then
    (.error "NOT_INITIALIZED", s)
  else
    let data := fl_value_get_uint8_list buffer
    let s1 : Plugin :=
      { s with samples := s.samples ++ data, did_invoke_feed_callback := false }
    let s2 : Plugin :=
      if s1.playback_thread = false then
        { s1 with should_stop := false, playback_thread := true }
      else s1
    (.success true, s2)

/-- `release_alsa`: if a handle is open, stop and join the worker, drain and
close the device, null the handle and clear the sample queue; in every case
return success. -/
def release_alsa (s : Plugin) : FlResponse × Plugin :=
  if s.handle = true then
    let s1 : Plugin :=
      if s.playback_thread = true then
        { s with should_stop := true, playback_thread := false }
      else s
    let s2 : Plugin := { s1 with handle := false, samples := [] }
    (.success true, s2)
  else
    (.success true, s)

/-- The `setFeedThreshold` branch of
`flutter_pcm_sound_plugin_handle_method_call`: the looked-up
`"feed_threshold"` value (`none` = absent) is stored unvalidated. -/
def handle_setFeedThreshold (s : Plugin) (threshold_value : Option Int) :
    FlResponse × Plugin :=
  match threshold_value with
  | none => (.error "INVALID_ARGS", s)
  | some t => (.success true, { s with feed_threshold := t })

/-- ALSA calls made by the plugin, in source order, for the device-I/O
trace. -/
inductive AlsaOp where
  | pcm_open
  | hw_params_any
  | set_access
  | set_format
  | set_rate_near
  | set_channels
  | set_buffer_size_near
  | set_period_size_near
  | hw_params_commit
  | get_buffer_size
  | sw_params_current
  | set_start_threshold
  | set_avail_min
  | sw_params_commit
  | pcm_prepare
  | pcm_close
deriving DecidableEq, Repr

/-- `setup_alsa`.  `sample_rate_value` and `num_channels_value` are the
lookup results for `"sample_rate"` and `"num_channels"` (`none` = absent).
`dev` is the device oracle giving each ALSA call's return code.  Returns
the response, the new state and the trace of device calls made.  On a
failure after `snd_pcm_open` the source calls `snd_pcm_close` but does not
null `self->handle`, so `handle` stays `true` on those paths. -/
def setup_alsa (s : Plugin) (sample_rate_value num_channels_value : Option Int)
    (dev : AlsaOp → Int) : FlResponse × Plugin × List AlsaOp :=
  match sample_rate_value, num_channels_value with
  | some rate, some ch =>
    let s0 : Plugin := { s with sample_rate := rate, channels := ch }
    if dev .pcm_open < 0 then
      (.error "ALSA_ERROR", s0, [.pcm_open])
    else
      let s1 : Plugin := { s0 with handle := true }
      if dev .set_access < 0 then
        (.error "ALSA_ERROR", s1,
          [.pcm_open, .hw_params_any, .set_access, .pcm_close])
      else if dev .set_format < 0 then
        (.error "ALSA_ERROR", s1,
          [.pcm_open, .hw_params_any, .set_access, .set_format, .pcm_close])
      else if dev .set_rate_near < 0 then
        (.error "ALSA_ERROR", s1,
          [.pcm_open, .hw_params_any, .set_access, .set_format,
           .set_rate_near, .pcm_close])
      else if dev .set_channels < 0 then
        (.error "ALSA_ERROR", s1,
          [.pcm_open, .hw_params_any, .set_access, .set_format,
           .set_rate_near, .set_channels, .pcm_close])
      else if dev .set_buffer_size_near < 0 then
        (.error "ALSA_ERROR", s1,
          [.pcm_open, .hw_params_any, .set_access, .set_format,
           .set_rate_near, .set_channels, .set_buffer_size_near, .pcm_close])
      else if dev .set_period_size_near < 0 then
        (.error "ALSA_ERROR", s1,
          [.pcm_open, .hw_params_any, .set_access, .set_format,
           .set_rate_near, .set_channels, .set_buffer_size_near,
           .set_period_size_near, .pcm_close])
      else if dev .hw_params_commit < 0 then
        (.error "ALSA_ERROR", s1,
          [.pcm_open, .hw_params_any, .set_access, .set_format,
           .set_rate_near, .set_channels, .set_buffer_size_near,
           .set_period_size_near, .hw_params_commit, .pcm_close])
      else if dev .set_start_threshold < 0 then
        (.error "ALSA_ERROR", s1,
          [.pcm_open, .hw_params_any, .set_access, .set_format,
           .set_rate_near, .set_channels, .set_buffer_size_near,
           .set_period_size_near, .hw_params_commit, .get_buffer_size,
           .sw_params_current, .set_start_threshold, .pcm_close])
      else if dev .set_avail_min < 0 then
        (.error "ALSA_ERROR", s1,
          [.pcm_open, .hw_params_any, .set_access, .set_format,
           .set_rate_near, .set_channels, .set_buffer_size_near,
           .set_period_size_near, .hw_params_commit, .get_buffer_size,
           .sw_params_current, .set_start_threshold, .set_avail_min,
           .pcm_close])
      else if dev .sw_params_commit < 0 then
        (.error "ALSA_ERROR", s1,
          [.pcm_open, .hw_params_any, .set_access, .set_format,
           .set_rate_near, .set_channels, .set_buffer_size_near,
           .set_period_size_near, .hw_params_commit, .get_buffer_size,
           .sw_params_current, .set_start_threshold, .set_avail_min,
           .sw_params_commit, .pcm_close])
      else if dev .pcm_prepare < 0 then
        (.error "ALSA_ERROR", s1,
          [.pcm_open, .hw_params_any, .set_access, .set_format,
           .set_rate_near, .set_channels, .set_buffer_size_near,
           .set_period_size_near, .hw_params_commit, .get_buffer_size,
           .sw_params_current, .set_start_threshold, .set_avail_min,
           .sw_params_commit, .pcm_prepare, .pcm_close])
      else
        (.success true, s1,
          [.pcm_open, .hw_params_any, .set_access, .set_format,
           .set_rate_near, .set_channels, .set_buffer_size_near,
           .set_period_size_near, .hw_params_commit, .get_buffer_size,
           .sw_params_current, .set_start_threshold, .set_avail_min,
           .sw_params_commit, .pcm_prepare])
  | _, _ =>
    (.error "DEBUG", s, [])

/-- Observable events of one playback-loop iteration (`playback_thread_func`).
`signal` is a `g_idle_add(feed_callback, …)` dispatch carrying
`remaining_frames`; `write` is the bytes the device accepts in a successful
`snd_pcm_writei`; `writeiCall` is one call to `snd_pcm_writei`;
`recoverCall`/`prepareCall` are `snd_pcm_recover`/`snd_pcm_prepare`.
`sleep`/`yieldCpu` would be produced by a bounded wait or a thread yield:
the source contains no such call, so no branch of the model emits them. -/
inductive Ev where
  | signal (remaining : Nat)
  | write (bytes : List Byte)
  | writeiCall
  | recoverCall
  | prepareCall
  | sleep (ms : Nat)
  | yieldCpu
deriving DecidableEq, Repr

/-- Outcome of the first non-`EAGAIN` `snd_pcm_writei` return value in one
iteration: `ok` = all requested frames accepted; `underrunRecovered` =
`-EPIPE` and `snd_pcm_recover` succeeds; `underrunFatal` = `-EPIPE` and
`snd_pcm_recover` fails; `fatal` = any other negative return. -/
inductive WriteOutcome where
  | ok
  | underrunRecovered
  | underrunFatal
  | fatal
deriving DecidableEq, Repr

/-- Loop control after one iteration: `next` = `continue` / fall through to
the next `while` test; `brk` = `break` (the worker thread function
returns). -/
inductive LoopCtl where
  | next
  | brk
deriving DecidableEq, Repr

/-- `frame size = channels * 2` bytes, as the `size_t` the C division
`self->samples.size() / (self->channels * 2)` uses. -/
def frameBytes (s : Plugin) : Nat := toSizeT (s.channels * 2)

/-- `bytes_per_write = frames_per_write * self->channels * 2` with
`frames_per_write = 2048`, as computed (in `size_t`) at worker start. -/
def bytesPerWrite (s : Plugin) : Nat := toSizeT (2048 * s.channels * 2)

/-- `bytes_to_take = std::min(bytes_per_write, self->samples.size())`. -/
def bytes_to_take (s : Plugin) : Nat := min (bytesPerWrite s) s.samples.length

/-- The chunk assigned from the first `bytes_to_take` bytes of the queue. -/
def chunkOf (s : Plugin) : List Byte := s.samples.take (bytes_to_take s)

/-- The state after `self->samples.erase(begin, begin + bytes_to_take)`. -/
def afterPop (s : Plugin) : Plugin :=
  { s with samples := s.samples.drop (bytes_to_take s) }

/-- `remaining_frames = self->samples.size() / (self->channels * 2)` after
the erase (a `size_t` division). -/
def remaining_frames (s : Plugin) : Nat :=
  (s.samples.drop (bytes_to_take s)).length / frameBytes s

/-- The low-watermark test `remaining_frames <= self->feed_threshold &&
!self->did_invoke_feed_callback`: C converts the `int` threshold to
`size_t` for the comparison. -/
def fireSignal (s : Plugin) : Bool :=
  decide (remaining_frames s ≤ toSizeT s.feed_threshold)
    && !s.did_invoke_feed_callback

/-- State after the pop and the conditional latch set. -/
def postState (s : Plugin) : Plugin :=
  if fireSignal s then { afterPop s with did_invoke_feed_callback := true }
  else afterPop s

/-- The `g_idle_add` dispatch performed after the locked block when
`need_more_data` was set in the nonempty branch. -/
def sigEvsOf (s : Plugin) : List Ev :=
  if fireSignal s then [Ev.signal (remaining_frames s)] else []

/-- One iteration of the `while (!should_stop)` body of
`playback_thread_func`, for a worker whose device yields `eagain`
consecutive `-EAGAIN` returns from `snd_pcm_writei` before the outcome
`out`.  Returns the new state, the events of the iteration in program
order, and the loop control.  Faithful corners: in the empty-queue branch
the `continue` sits inside the locked block, so the latch is set but the
`need_more_data` dispatch after the block is skipped; on a successful write
the device accepts `chunk.size() / (channels * 2)` whole frames, so a
trailing partial frame of the chunk is dropped; on a recovered underrun the
code `continue`s without re-issuing the popped chunk. -/
def iterate (s : Plugin) (eagain : Nat) (out : WriteOutcome) :
    Plugin × List Ev × LoopCtl :=
  if s.samples.isEmpty then
    if s.did_invoke_feed_callback = false then
      ({ s with did_invoke_feed_callback := true }, [], .next)
    else
      (s, [], .next)
  else
    let chunk := chunkOf s
    let s2 := postState s
    if chunk.isEmpty then
      (s2, sigEvsOf s, .next)
    else
      let callEvs := List.replicate (eagain + 1) Ev.writeiCall
      match out with
      | .ok =>
        let nframes := chunk.length / frameBytes s
        (s2, sigEvsOf s ++ callEvs ++ [Ev.write (chunk.take (nframes * frameBytes s))],
          .next)
      | .underrunRecovered =>
        (s2, sigEvsOf s ++ callEvs ++ [Ev.recoverCall, Ev.prepareCall], .next)
      | .underrunFatal =>
        (s2, sigEvsOf s ++ callEvs ++ [Ev.recoverCall], .brk)
      | .fatal =>
        (s2, sigEvsOf s ++ callEvs, .brk)

/-- Interleaved actions of the two threads: a `feed` method call on the
caller thread, or one worker-loop iteration with its device behaviour. -/
inductive Act where
  | feed (buf : List Byte)
  | work (eagain : Nat) (out : WriteOutcome)
deriving DecidableEq, Repr

/-- State of a run: the plugin plus whether the worker thread function has
returned (after a `break`, or after observing `should_stop`; the source
leaves `playback_thread` non-null in the `break` case). -/
structure RunSt where
  plug : Plugin
  exited : Bool
deriving DecidableEq, Repr

/-- One interleaved step.  A `feed` runs `feed_alsa` (with a present
buffer); a `work` step runs one loop iteration unless the thread has
already returned or observes `should_stop` at the `while` test. -/
def stepAct (r : RunSt) : Act → RunSt × List Ev
  | .feed b =>
    let (_, p) := feed_alsa r.plug (some b)
    ({ r with plug := p }, [])
  | .work eagain out =>
    if r.exited = true then
      (r, [])
    else if r.plug.should_stop = true then
      ({ r with exited := true }, [])
    else
      let (p, evs, ctl) := iterate r.plug eagain out
      ({ plug := p, exited := decide (ctl = LoopCtl.brk) }, evs)

/-- Run a list of interleaved actions, concatenating the event traces. -/
def runActs (r : RunSt) : List Act → RunSt × List Ev
  | [] => (r, [])
  | a :: rest =>
    let (r1, evs) := stepAct r a
    let (r2, evs') := runActs r1 rest
    (r2, evs ++ evs')

/-- The bytes the device accepted, concatenated across all writes of a
trace. -/
def writtenBytes : List Ev → List Byte
  | [] => []
  | Ev.write bs :: rest => bs ++ writtenBytes rest
  | Ev.signal _ :: rest => writtenBytes rest
  | Ev.writeiCall :: rest => writtenBytes rest
  | Ev.recoverCall :: rest => writtenBytes rest
  | Ev.prepareCall :: rest => writtenBytes rest
  | Ev.sleep _ :: rest => writtenBytes rest
  | Ev.yieldCpu :: rest => writtenBytes rest

/-- Number of `OnFeedSamples` dispatches in a trace. -/
def sigCount (evs : List Ev) : Nat :=
  evs.countP fun e => match e with | Ev.signal _ => true | _ => false

/-- Number of `snd_pcm_writei` calls in a trace. -/
def writeiCount (evs : List Ev) : Nat :=
  evs.countP fun e => match e with | Ev.writeiCall => true | _ => false

/-- Number of bounded waits in a trace. -/
def sleepCount (evs : List Ev) : Nat :=
  evs.countP fun e => match e with | Ev.sleep _ => true | _ => false

/-- Number of thread yields in a trace. -/
def yieldCount (evs : List Ev) : Nat :=
  evs.countP fun e => match e with | Ev.yieldCpu => true | _ => false

/-- The bytes fed over a list of actions, concatenated. -/
def fedBytes : List Act → List Byte
  | [] => []
  | Act.feed b :: rest => b ++ fedBytes rest
  | Act.work _ _ :: rest => fedBytes rest

/-- Number of worker-thread starts across a sequence of `feed` calls: a
start is a `feed_alsa` call that turns `playback_thread` from null to
non-null (`new std::thread(...)` executed). -/
def workerStarts : Plugin → List (List Byte) → Nat
  | _, [] => 0
  | s, b :: rest =>
    let s' := (feed_alsa s (some b)).2
    (if s.playback_thread = false ∧ s'.playback_thread = true then 1 else 0)
      + workerStarts s' rest

/-- `n` worker iterations whose writes all succeed. -/
def workSteps (n : Nat) : List Act := List.replicate n (Act.work 0 WriteOutcome.ok)

/-- A depletion/refill episode: one `feed` of buffer `b` followed by `n`
worker iterations whose writes all succeed. -/
def episode (r : RunSt) (b : List Byte) (n : Nat) : RunSt × List Ev :=
  runActs r (Act.feed b :: workSteps n)

/-- Realistic channel counts: a positive C `int` (the spec's positivity
requirement on `num_channels`; also what keeps the `size_t` products below
2^64). -/
def channelsOk (s : Plugin) : Prop := 1 ≤ s.channels ∧ s.channels < 2 ^ 31

/-- The action predicate of the amended FIFO claim: every fed buffer is a
whole number of frames and every write succeeds. -/
def okAct (fs : Nat) : Act → Bool
  | .feed b => decide (fs ∣ b.length)
  | .work _ o => decide (o = WriteOutcome.ok)

/-- A concrete post-`setup` state: one channel, 44100 Hz, default
threshold, nothing queued, no worker yet. -/
def sReady : Plugin :=
  { handle := true
    sample_rate := 44100
    channels := 1
    feed_threshold := 1024
    did_invoke_feed_callback := false
    samples := []
    should_stop := false
    playback_thread := false }

/-- `sReady` with a running worker. -/
def sThread : Plugin := { sReady with playback_thread := true }

/-- Run state for a live worker over `sReady`. -/
def rReady : RunSt := { plug := sReady, exited := false }

/-- A worker state holding one pending 4-byte queue with the latch set. -/
def sPend : Plugin :=
  { sReady with samples := [1, 2, 3, 4], did_invoke_feed_callback := true }

/-- A state with a negative feed threshold and more than one write's worth
of queued bytes (4097 > 4096 = bytes_per_write for one channel). -/
def sNegThr : Plugin :=
  { sReady with samples := List.replicate 4097 7, feed_threshold := -1 }

/-! ## Arithmetic facts about the C conversions -/

lemma toSizeT_of_nonneg {x : Int} (h0 : 0 ≤ x) (h1 : x < 2 ^ 64) :
    toSizeT x = x.toNat := by
  unfold toSizeT
  rw [Int.emod_eq_of_lt h0 h1]

lemma toSizeT_of_neg {x : Int} (h0 : -2 ^ 63 ≤ x) (h1 : x < 0) :
    toSizeT x = (x + 2 ^ 64).toNat := by
  unfold toSizeT
  have h64 : ((2 : Int) ^ 64) = 18446744073709551616 := by norm_num
  have h63 : ((2 : Int) ^ 63) = 9223372036854775808 := by norm_num
  rw [h63] at h0
  rw [h64] at *
  omega

lemma frameBytes_eq {s : Plugin} (h : channelsOk s) :
    frameBytes s = (s.channels * 2).toNat := by
  obtain ⟨h1, h2⟩ := h
  unfold frameBytes
  apply toSizeT_of_nonneg
  · omega
  · have : (2 : Int) ^ 31 * 2 < 2 ^ 64 := by norm_num
    nlinarith

lemma frameBytes_pos {s : Plugin} (h : channelsOk s) : 0 < frameBytes s := by
  rw [frameBytes_eq h]
  obtain ⟨h1, _⟩ := h
  omega

lemma bytesPerWrite_eq {s : Plugin} (h : channelsOk s) :
    bytesPerWrite s = 2048 * frameBytes s := by
  obtain ⟨h1, h2⟩ := h
  rw [frameBytes_eq ⟨h1, h2⟩]
  unfold bytesPerWrite
  rw [toSizeT_of_nonneg (by omega)
    (by have : (2048 : Int) * (2 ^ 31) * 2 < 2 ^ 64 := by norm_num
        nlinarith)]
  omega

lemma bytesPerWrite_pos {s : Plugin} (h : channelsOk s) : 0 < bytesPerWrite s := by
  rw [bytesPerWrite_eq h]
  have := frameBytes_pos h
  omega

lemma frameBytes_dvd_bytesPerWrite {s : Plugin} (h : channelsOk s) :
    frameBytes s ∣ bytesPerWrite s := by
  rw [bytesPerWrite_eq h]
  exact dvd_mul_left _ _

/-! ## Field-preservation lemmas -/

lemma feed_alsa_handle (s : Plugin) (b : Option (List Byte)) :
    ((feed_alsa s b).2).handle = s.handle := by
  unfold feed_alsa
  split <;> simp <;> split <;> simp

lemma feed_alsa_channels (s : Plugin) (b : Option (List Byte)) :
    ((feed_alsa s b).2).channels = s.channels := by
  unfold feed_alsa
  split <;> simp <;> split <;> simp

lemma feed_alsa_threshold (s : Plugin) (b : Option (List Byte)) :
    ((feed_alsa s b).2).feed_threshold = s.feed_threshold := by
  unfold feed_alsa
  split <;> simp <;> split <;> simp

lemma feed_alsa_of_handle (s : Plugin) (b : Option (List Byte))
    (h : s.handle = true) :
    (feed_alsa s b).1 = FlResponse.success true ∧
    ((feed_alsa s b).2).samples = s.samples ++ fl_value_get_uint8_list b ∧
    ((feed_alsa s b).2).did_invoke_feed_callback = false ∧
    ((feed_alsa s b).2).playback_thread = true ∧
    ((feed_alsa s b).2).should_stop =
      (if s.playback_thread = false then false else s.should_stop) := by
  unfold feed_alsa
  rw [h]
  by_cases hp : s.playback_thread = false <;> simp [hp]

lemma afterPop_fields (s : Plugin) :
    (afterPop s).channels = s.channels ∧ (afterPop s).handle = s.handle ∧
    (afterPop s).should_stop = s.should_stop ∧
    (afterPop s).feed_threshold = s.feed_threshold ∧
    (afterPop s).did_invoke_feed_callback = s.did_invoke_feed_callback := by
  unfold afterPop
  simp

lemma postState_fields (s : Plugin) :
    (postState s).channels = s.channels ∧ (postState s).handle = s.handle ∧
    (postState s).should_stop = s.should_stop ∧
    (postState s).feed_threshold = s.feed_threshold := by
  unfold postState
  split <;> simp [afterPop]

lemma postState_samples (s : Plugin) :
    (postState s).samples = s.samples.drop (bytes_to_take s) := by
  unfold postState
  split <;> simp [afterPop]

lemma iterate_fields (s : Plugin) (e : Nat) (o : WriteOutcome) :
    ((iterate s e o).1).channels = s.channels ∧
    ((iterate s e o).1).handle = s.handle ∧
    ((iterate s e o).1).should_stop = s.should_stop ∧
    ((iterate s e o).1).feed_threshold = s.feed_threshold := by
  unfold iterate
  dsimp only
  split
  · split <;> simp
  · split <;> (try split) <;> exact postState_fields s

/-! ## Trace-count lemmas -/

lemma sigCount_append (l1 l2 : List Ev) :
    sigCount (l1 ++ l2) = sigCount l1 + sigCount l2 := by
  unfold sigCount
  exact List.countP_append _ _ _

lemma sigCount_replicate_writei (n : Nat) :
    sigCount (List.replicate n Ev.writeiCall) = 0 := by
  unfold sigCount
  simp [List.countP_eq_zero]

lemma sigCount_sigEvsOf (s : Plugin) :
    sigCount (sigEvsOf s) = if fireSignal s then 1 else 0 := by
  unfold sigEvsOf sigCount
  split <;> simp

lemma writtenBytes_append (l1 l2 : List Ev) :
    writtenBytes (l1 ++ l2) = writtenBytes l1 ++ writtenBytes l2 := by
  induction l1 with
  | nil => rfl
  | cons a t ih =>
    cases a <;> simp [writtenBytes, ih]

lemma writtenBytes_replicate_writei (n : Nat) :
    writtenBytes (List.replicate n Ev.writeiCall) = [] := by
  induction n with
  | zero => rfl
  | succ n ih => simpa [List.replicate, writtenBytes] using ih

lemma writtenBytes_sigEvsOf (s : Plugin) : writtenBytes (sigEvsOf s) = [] := by
  unfold sigEvsOf
  split <;> rfl

/-! ## Equation lemmas for one worker iteration -/

lemma iterate_empty_unlatched (s : Plugin) (e : Nat) (o : WriteOutcome)
    (hs : s.samples = []) (hl : s.did_invoke_feed_callback = false) :
    iterate s e o = ({ s with did_invoke_feed_callback := true }, [], LoopCtl.next) := by
  unfold iterate
  simp [hs, hl]

lemma iterate_empty_latched (s : Plugin) (e : Nat) (o : WriteOutcome)
    (hs : s.samples = []) (hl : s.did_invoke_feed_callback = true) :
    iterate s e o = (s, [], LoopCtl.next) := by
  unfold iterate
  simp [hs, hl]

lemma chunkOf_length (s : Plugin) : (chunkOf s).length = bytes_to_take s := by
  unfold chunkOf bytes_to_take
  simp [Nat.min_le_right]

lemma chunkOf_ne_empty (s : Plugin) (hch : channelsOk s) (hs : s.samples ≠ []) :
    (chunkOf s).isEmpty = false := by
  have hb := bytesPerWrite_pos hch
  have hlen : 0 < s.samples.length := List.length_pos.mpr hs
  have : 0 < (chunkOf s).length := by
    rw [chunkOf_length]
    unfold bytes_to_take
    omega
  cases h : (chunkOf s).isEmpty
  · rfl
  · rw [List.isEmpty_iff] at h
    rw [h] at this
    simp at this

lemma iterate_nonempty_ok (s : Plugin) (e : Nat) (hch : channelsOk s)
    (hs : s.samples ≠ []) :
    iterate s e .ok =
      (postState s,
       sigEvsOf s ++ List.replicate (e + 1) Ev.writeiCall ++
         [Ev.write ((chunkOf s).take ((chunkOf s).length / frameBytes s * frameBytes s))],
       LoopCtl.next) := by
  unfold iterate
  have hne : s.samples.isEmpty = false := by
    cases h : s.samples.isEmpty
    · rfl
    · exact absurd (List.isEmpty_iff.mp h) hs
  simp [hne, chunkOf_ne_empty s hch hs]

lemma iterate_nonempty_recovered (s : Plugin) (e : Nat) (hch : channelsOk s)
    (hs : s.samples ≠ []) :
    iterate s e .underrunRecovered =
      (postState s,
       sigEvsOf s ++ List.replicate (e + 1) Ev.writeiCall ++
         [Ev.recoverCall, Ev.prepareCall],
       LoopCtl.next) := by
  unfold iterate
  have hne : s.samples.isEmpty = false := by
    cases h : s.samples.isEmpty
    · rfl
    · exact absurd (List.isEmpty_iff.mp h) hs
  simp [hne, chunkOf_ne_empty s hch hs]

lemma iterate_nonempty_underrunFatal (s : Plugin) (e : Nat) (hch : channelsOk s)
    (hs : s.samples ≠ []) :
    iterate s e .underrunFatal =
      (postState s,
       sigEvsOf s ++ List.replicate (e + 1) Ev.writeiCall ++ [Ev.recoverCall],
       LoopCtl.brk) := by
  unfold iterate
  have hne : s.samples.isEmpty = false := by
    cases h : s.samples.isEmpty
    · rfl
    · exact absurd (List.isEmpty_iff.mp h) hs
  simp [hne, chunkOf_ne_empty s hch hs]

/-! ## FIFO invariant -/

lemma frameBytes_dvd_bytes_to_take (s : Plugin) (hch : channelsOk s)
    (hdvd : frameBytes s ∣ s.samples.length) :
    frameBytes s ∣ bytes_to_take s := by
  unfold bytes_to_take
  rcases min_cases (bytesPerWrite s) s.samples.length with ⟨h, _⟩ | ⟨h, _⟩
  · rw [h]; exact frameBytes_dvd_bytesPerWrite hch
  · rw [h]; exact hdvd

lemma chunk_whole_frames (s : Plugin) (hch : channelsOk s)
    (hdvd : frameBytes s ∣ s.samples.length) :
    (chunkOf s).take ((chunkOf s).length / frameBytes s * frameBytes s) = chunkOf s := by
  have hd : frameBytes s ∣ (chunkOf s).length := by
    rw [chunkOf_length]
    exact frameBytes_dvd_bytes_to_take s hch hdvd
  rw [Nat.div_mul_cancel hd, List.take_length]

/-- A byte-conservation step: with a successful write, the bytes the device
accepts followed by the bytes still queued are exactly the bytes that were
queued, and frame alignment of the queue is preserved. -/
lemma step_ok_bytes (s : Plugin) (e : Nat) (hch : channelsOk s)
    (hdvd : frameBytes s ∣ s.samples.length) :
    writtenBytes (iterate s e .ok).2.1 ++ ((iterate s e .ok).1).samples = s.samples ∧
    frameBytes s ∣ ((iterate s e .ok).1).samples.length := by
  by_cases hs : s.samples = []
  · by_cases hl : s.did_invoke_feed_callback = false
    · rw [iterate_empty_unlatched s e .ok hs hl]
      simp [writtenBytes, hs]
    · rw [iterate_empty_latched s e .ok hs (by simpa using hl)]
      simp [writtenBytes, hs]
  · rw [iterate_nonempty_ok s e hch hs]
    rw [chunk_whole_frames s hch hdvd]
    constructor
    · simp only [writtenBytes_append, writtenBytes_sigEvsOf,
        writtenBytes_replicate_writei]
      simp only [writtenBytes, List.nil_append, List.append_nil]
      rw [postState_samples]
      unfold chunkOf
      exact List.take_append_drop _ _
    · simp only [postState_samples, List.length_drop]
      exact Nat.dvd_sub' hdvd (frameBytes_dvd_bytes_to_take s hch hdvd)

lemma frameBytes_congr {s s' : Plugin} (h : s'.channels = s.channels) :
    frameBytes s' = frameBytes s := by
  unfold frameBytes
  rw [h]

lemma channelsOk_congr {s s' : Plugin} (h : s'.channels = s.channels)
    (hc : channelsOk s) : channelsOk s' := by
  unfold channelsOk at *
  rw [h]
  exact hc

lemma fedBytes_feed (b : List Byte) (rest : List Act) :
    fedBytes (Act.feed b :: rest) = b ++ fedBytes rest := rfl

lemma fedBytes_work (e : Nat) (o : WriteOutcome) (rest : List Act) :
    fedBytes (Act.work e o :: rest) = fedBytes rest := rfl

lemma runActs_fifo (acts : List Act) (r : RunSt) (hch : channelsOk r.plug)
    (hh : r.plug.handle = true)
    (hdvd : frameBytes r.plug ∣ r.plug.samples.length)
    (hacts : ∀ a ∈ acts, okAct (frameBytes r.plug) a = true) :
    writtenBytes (runActs r acts).2 ++ ((runActs r acts).1).plug.samples
      = r.plug.samples ++ fedBytes acts := by
  induction acts generalizing r with
  | nil => simp [runActs, fedBytes, writtenBytes]
  | cons a rest ih =>
    have ha := hacts a (List.mem_cons_self a rest)
    have hrest : ∀ x ∈ rest, okAct (frameBytes r.plug) x = true :=
      fun x hx => hacts x (List.mem_cons_of_mem a hx)
    cases a with
    | feed b =>
      have hfs : frameBytes r.plug ∣ b.length := by
        simpa [okAct] using ha
      have hfeed := feed_alsa_of_handle r.plug (some b) hh
      set p1 := (feed_alsa r.plug (some b)).2 with hp1
      have hchan : p1.channels = r.plug.channels := feed_alsa_channels r.plug (some b)
      have hfb : frameBytes p1 = frameBytes r.plug := frameBytes_congr hchan
      have hsamp : p1.samples = r.plug.samples ++ b := by
        simpa [fl_value_get_uint8_list] using hfeed.2.1
      have hstep : stepAct r (Act.feed b) = ({ r with plug := p1 }, []) := by
        simp [stepAct]
      have h1 := ih { r with plug := p1 }
        (channelsOk_congr hchan hch)
        (by rw [feed_alsa_handle]; exact hh)
        (by rw [hfb, hsamp]; simp only [List.length_append]
            exact Nat.dvd_add hdvd hfs)
        (by intro x hx; rw [hfb]; exact hrest x hx)
      simp only [runActs, hstep]
      simp only [writtenBytes_append] at h1 ⊢
      simp only [writtenBytes, List.nil_append]
      rw [h1, hsamp, fedBytes, List.append_assoc]
    | work e o =>
      have ho : o = WriteOutcome.ok := by
        simpa [okAct] using ha
      subst ho
      by_cases hex : r.exited = true
      · have hstep : stepAct r (Act.work e .ok) = (r, []) := by
          simp [stepAct, hex]
        simp only [runActs, hstep]
        simp only [writtenBytes, List.nil_append]
        have h1 := ih r hch hh hdvd hrest
        rw [h1, fedBytes_work]
      · by_cases hss : r.plug.should_stop = true
        · have hstep : stepAct r (Act.work e .ok) = ({ r with exited := true }, []) := by
            simp [stepAct, hex, hss]
          simp only [runActs, hstep]
          simp only [writtenBytes, List.nil_append]
          have h1 := ih { r with exited := true } hch hh hdvd
            (by intro x hx; exact hrest x hx)
          rw [h1, fedBytes_work]
        · set st := iterate r.plug e WriteOutcome.ok with hst
          set r1 : RunSt := { plug := st.1, exited := decide (st.2.2 = LoopCtl.brk) } with hr1
          have hstep : stepAct r (Act.work e .ok) = (r1, st.2.1) := by
            simp [stepAct, hex, hss, hst, hr1]
          have hcons := step_ok_bytes r.plug e hch hdvd
          have hchan : r1.plug.channels = r.plug.channels := (iterate_fields r.plug e .ok).1
          have hfb : frameBytes r1.plug = frameBytes r.plug := frameBytes_congr hchan
          have h1 := ih r1
            (channelsOk_congr hchan hch)
            (by show st.1.handle = true
                rw [(iterate_fields r.plug e .ok).2.1]; exact hh)
            (by show frameBytes r1.plug ∣ st.1.samples.length
                rw [hfb]; exact hcons.2)
            (by intro x hx; rw [hfb]; exact hrest x hx)
          simp only [runActs, hstep]
          simp only [writtenBytes_append]
          rw [List.append_assoc, h1]
          have : r1.plug.samples = st.1.samples := rfl
          rw [this] at h1 ⊢
          rw [← List.append_assoc]
          rw [show writtenBytes st.2.1 ++ st.1.samples = r.plug.samples from hcons.1]
          rw [fedBytes_work]

/-! ## Signal-latch lemmas -/

lemma postState_latch (s : Plugin) :
    (postState s).did_invoke_feed_callback
      = (fireSignal s || s.did_invoke_feed_callback) := by
  unfold postState
  split
  · next h => simp [h]
  · next h =>
    simp only [Bool.not_eq_true] at h
    simp [afterPop, h]

lemma sigCount_nil : sigCount [] = 0 := rfl

lemma sigCount_write (bs : List Byte) : sigCount [Ev.write bs] = 0 := rfl

lemma sigCount_recover_prepare : sigCount [Ev.recoverCall, Ev.prepareCall] = 0 := rfl

lemma sigCount_recover : sigCount [Ev.recoverCall] = 0 := rfl

/-- Once the latch is set, an iteration dispatches nothing and leaves the
latch set (only `feed` clears it). -/
lemma iterate_latched (s : Plugin) (e : Nat) (o : WriteOutcome)
    (hl : s.did_invoke_feed_callback = true) :
    sigCount (iterate s e o).2.1 = 0 ∧
    ((iterate s e o).1).did_invoke_feed_callback = true := by
  have hf : fireSignal s = false := by
    unfold fireSignal
    rw [hl]
    simp
  have hse : sigEvsOf s = [] := by
    unfold sigEvsOf
    rw [hf]
    simp
  have hps : (postState s).did_invoke_feed_callback = true := by
    rw [postState_latch, hf, hl]
    rfl
  unfold iterate
  dsimp only
  split
  · split
    · next h => rw [hl] at h; exact absurd h (by simp)
    · exact ⟨rfl, hl⟩
  · split
    · exact ⟨by rw [hse]; rfl, hps⟩
    · split <;>
        refine ⟨?_, hps⟩ <;>
        simp [hse, sigCount_append, sigCount_replicate_writei, sigCount]


lemma iterate_ok_ctl (s : Plugin) (e : Nat) :
    (iterate s e WriteOutcome.ok).2.2 = LoopCtl.next := by
  unfold iterate
  dsimp only
  split
  · split <;> rfl
  · split <;> rfl

lemma workSteps_succ (n : Nat) :
    workSteps (n + 1) = Act.work 0 WriteOutcome.ok :: workSteps n := by
  unfold workSteps
  rw [List.replicate_succ]

/-- Latch monotonicity over any number of successful worker iterations:
no dispatch occurs and the latch stays set. -/
lemma workSteps_latched (n : Nat) (r : RunSt)
    (hl : r.plug.did_invoke_feed_callback = true) :
    sigCount (runActs r (workSteps n)).2 = 0 ∧
    ((runActs r (workSteps n)).1).plug.did_invoke_feed_callback = true := by
  induction n generalizing r with
  | zero => exact ⟨rfl, hl⟩
  | succ n ih =>
    rw [workSteps_succ]
    by_cases hex : r.exited = true
    · have hstep : stepAct r (Act.work 0 .ok) = (r, []) := by
        simp [stepAct, hex]
      simp only [runActs, hstep]
      have h1 := ih r hl
      simpa [sigCount_append] using h1
    · by_cases hss : r.plug.should_stop = true
      · have hstep : stepAct r (Act.work 0 .ok) = ({ r with exited := true }, []) := by
          simp [stepAct, hex, hss]
        simp only [runActs, hstep]
        have h1 := ih { r with exited := true } hl
        simpa [sigCount_append] using h1
      · set st := iterate r.plug 0 WriteOutcome.ok with hst
        set r1 : RunSt := { plug := st.1, exited := decide (st.2.2 = LoopCtl.brk) } with hr1
        have hstep : stepAct r (Act.work 0 .ok) = (r1, st.2.1) := by
          simp [stepAct, hex, hss, hst, hr1]
        have hit := iterate_latched r.plug 0 WriteOutcome.ok hl
        have h1 := ih r1 (by show st.1.did_invoke_feed_callback = true; exact hit.2)
        simp only [runActs, hstep, sigCount_append]
        rw [hit.1, h1.1]
        exact ⟨rfl, h1.2⟩

/-- An unlatched worker that starts on a nonempty queue and drains it
dispatches exactly one signal. -/
lemma workSteps_fires_once (n : Nat) (r : RunSt)
    (hss : r.plug.should_stop = false) (hex : r.exited = false)
    (hl : r.plug.did_invoke_feed_callback = false)
    (hne : r.plug.samples ≠ [])
    (hdrain : ((runActs r (workSteps n)).1).plug.samples = []) :
    sigCount (runActs r (workSteps n)).2 = 1 := by
  induction n generalizing r with
  | zero =>
    exact absurd (by simpa [workSteps, runActs] using hdrain) hne
  | succ n ih =>
    rw [workSteps_succ] at hdrain ⊢
    set st := iterate r.plug 0 WriteOutcome.ok with hst
    set r1 : RunSt := { plug := st.1, exited := decide (st.2.2 = LoopCtl.brk) } with hr1
    have hstep : stepAct r (Act.work 0 .ok) = (r1, st.2.1) := by
      simp [stepAct, hex, hss, hst, hr1]
    have hnee : r.plug.samples.isEmpty = false := by
      cases h : r.plug.samples.isEmpty
      · rfl
      · exact absurd (List.isEmpty_iff.mp h) hne
    have hiter : st = (postState r.plug,
        sigEvsOf r.plug ++ List.replicate 1 Ev.writeiCall ++
          [Ev.write ((chunkOf r.plug).take
            ((chunkOf r.plug).length / frameBytes r.plug * frameBytes r.plug))],
        LoopCtl.next) ∨
        st = (postState r.plug, sigEvsOf r.plug, LoopCtl.next) := by
      rw [hst]
      unfold iterate
      dsimp only
      rw [hnee]
      simp only [Bool.false_eq_true, if_false]
      by_cases hc : (chunkOf r.plug).isEmpty = true
      · right; rw [if_pos hc]
      · left; rw [if_neg hc]
    have hexited : r1.exited = false := by
      rw [hr1]
      rcases hiter with h | h <;> rw [h] <;> rfl
    have hstop1 : r1.plug.should_stop = false := by
      show st.1.should_stop = false
      rcases hiter with h | h <;> rw [h] <;>
        simpa [(postState_fields r.plug).2.2.1] using hss
    by_cases hf : fireSignal r.plug = true
    · have hsig : sigCount st.2.1 = 1 := by
        have hse : sigEvsOf r.plug = [Ev.signal (remaining_frames r.plug)] := by
          unfold sigEvsOf
          rw [hf]
          simp
        rcases hiter with h | h <;> rw [h] <;>
          simp [hse, sigCount_append, sigCount_replicate_writei, sigCount]
      have hl1 : r1.plug.did_invoke_feed_callback = true := by
        show st.1.did_invoke_feed_callback = true
        rcases hiter with h | h <;> rw [h] <;>
          simp [postState_latch, hf]
      have h0 := workSteps_latched n r1 hl1
      simp only [runActs, hstep, sigCount_append]
      rw [hsig, h0.1]
    · have hfire : fireSignal r.plug = false := by
        cases h : fireSignal r.plug
        · rfl
        · exact absurd h hf
      have hse : sigEvsOf r.plug = [] := by
        unfold sigEvsOf
        rw [hfire]
        simp
      have hsig : sigCount st.2.1 = 0 := by
        rcases hiter with h | h <;> rw [h] <;>
          simp [hse, sigCount_append, sigCount_replicate_writei, sigCount]
      have hlt : remaining_frames r.plug > toSizeT r.plug.feed_threshold := by
        unfold fireSignal at hfire
        rw [hl] at hfire
        simp at hfire
        omega
      have hne1 : r1.plug.samples ≠ [] := by
        show st.1.samples ≠ []
        have hsamp : st.1.samples = r.plug.samples.drop (bytes_to_take r.plug) := by
          rcases hiter with h | h <;> rw [h] <;> exact postState_samples r.plug
        rw [hsamp]
        intro hcon
        have : remaining_frames r.plug = 0 := by
          unfold remaining_frames
          rw [hcon]
          simp
        omega
      have hl1 : r1.plug.did_invoke_feed_callback = false := by
        show st.1.did_invoke_feed_callback = false
        rcases hiter with h | h <;> rw [h] <;>
          simp [postState_latch, hfire, hl]
      have hdrain1 : ((runActs r1 (workSteps n)).1).plug.samples = [] := by
        have : runActs r (Act.work 0 WriteOutcome.ok :: workSteps n)
            = ((runActs r1 (workSteps n)).1, st.2.1 ++ (runActs r1 (workSteps n)).2) := by
          simp only [runActs, hstep]
        rw [this] at hdrain
        exact hdrain
      have h1 := ih r1 hstop1 hexited hl1 hne1 hdrain1
      simp only [runActs, hstep, sigCount_append]
      rw [hsig, h1]

lemma workSteps_preserves (n : Nat) (r : RunSt)
    (hss : r.plug.should_stop = false) (hex : r.exited = false) :
    ((runActs r (workSteps n)).1).plug.channels = r.plug.channels ∧
    ((runActs r (workSteps n)).1).plug.handle = r.plug.handle ∧
    ((runActs r (workSteps n)).1).plug.should_stop = false ∧
    ((runActs r (workSteps n)).1).exited = false := by
  induction n generalizing r with
  | zero => exact ⟨rfl, rfl, hss, hex⟩
  | succ n ih =>
    rw [workSteps_succ]
    set st := iterate r.plug 0 WriteOutcome.ok with hst
    set r1 : RunSt := { plug := st.1, exited := decide (st.2.2 = LoopCtl.brk) } with hr1
    have hstep : stepAct r (Act.work 0 .ok) = (r1, st.2.1) := by
      simp [stepAct, (by simpa using hex : ¬ r.exited = true), hss, hst, hr1]
    have hflds := iterate_fields r.plug 0 WriteOutcome.ok
    have hstop1 : r1.plug.should_stop = false := by
      show st.1.should_stop = false
      rw [hst, hflds.2.2.1]
      exact hss
    have hex1 : r1.exited = false := by
      rw [hr1]
      simp only [hst, iterate_ok_ctl]
      rfl
    have h1 := ih r1 hstop1 hex1
    simp only [runActs, hstep]
    refine ⟨?_, ?_, h1.2.2.1, h1.2.2.2⟩
    · rw [h1.1]
      show st.1.channels = r.plug.channels
      rw [hst, hflds.1]
    · rw [h1.2.1]
      show st.1.handle = r.plug.handle
      rw [hst, hflds.2.1]

lemma stepAct_feed_eq (r : RunSt) (b : List Byte) :
    stepAct r (Act.feed b) = ({ r with plug := (feed_alsa r.plug (some b)).2 }, []) := by
  simp [stepAct]

/-- One depletion/refill episode on an open session that drains the queue
dispatches exactly one signal. -/
lemma episode_fires_once (r : RunSt) (b : List Byte) (n : Nat)
    (hh : r.plug.handle = true) (hss : r.plug.should_stop = false)
    (hex : r.exited = false) (hb : b ≠ [])
    (hdrain : ((episode r b n).1).plug.samples = []) :
    sigCount (episode r b n).2 = 1 := by
  have hfeed := feed_alsa_of_handle r.plug (some b) hh
  set r1 : RunSt := { r with plug := (feed_alsa r.plug (some b)).2 } with hr1
  have hepi : episode r b n = ((runActs r1 (workSteps n)).1,
      [] ++ (runActs r1 (workSteps n)).2) := by
    unfold episode
    simp only [runActs, stepAct_feed_eq]
  have hss1 : r1.plug.should_stop = false := by
    show ((feed_alsa r.plug (some b)).2).should_stop = false
    rw [hfeed.2.2.2.2]
    split <;> [rfl; exact hss]
  have hl1 : r1.plug.did_invoke_feed_callback = false := hfeed.2.2.1
  have hne1 : r1.plug.samples ≠ [] := by
    show ((feed_alsa r.plug (some b)).2).samples ≠ []
    rw [hfeed.2.1]
    simp [fl_value_get_uint8_list, hb]
  have hex1 : r1.exited = false := hex
  rw [hepi] at hdrain ⊢
  simp only [List.nil_append]
  exact workSteps_fires_once n r1 hss1 hex1 hl1 hne1 hdrain

/-- An episode keeps the session open, the stop flag clear and the worker
alive, so episodes chain. -/
lemma episode_preserves (r : RunSt) (b : List Byte) (n : Nat)
    (hh : r.plug.handle = true) (hss : r.plug.should_stop = false)
    (hex : r.exited = false) :
    ((episode r b n).1).plug.handle = true ∧
    ((episode r b n).1).plug.should_stop = false ∧
    ((episode r b n).1).exited = false := by
  have hfeed := feed_alsa_of_handle r.plug (some b) hh
  set r1 : RunSt := { r with plug := (feed_alsa r.plug (some b)).2 } with hr1
  have hepi : episode r b n = ((runActs r1 (workSteps n)).1,
      [] ++ (runActs r1 (workSteps n)).2) := by
    unfold episode
    simp only [runActs, stepAct_feed_eq]
  have hss1 : r1.plug.should_stop = false := by
    show ((feed_alsa r.plug (some b)).2).should_stop = false
    rw [hfeed.2.2.2.2]
    split <;> [rfl; exact hss]
  have hex1 : r1.exited = false := hex
  have hws := workSteps_preserves n r1 hss1 hex1
  rw [hepi]
  refine ⟨?_, hws.2.2.1, hws.2.2.2⟩
  rw [hws.2.1]
  show ((feed_alsa r.plug (some b)).2).handle = true
  rw [feed_alsa_handle]
  exact hh

/-! ## Worker-start lemmas -/

lemma feed_thread_mono (s : Plugin) (b : List Byte)
    (h : s.playback_thread = true) :
    ((feed_alsa s (some b)).2).playback_thread = true := by
  unfold feed_alsa
  split
  · exact h
  · simp [h]

lemma workerStarts_running (bufs : List (List Byte)) :
    ∀ s : Plugin, s.playback_thread = true → workerStarts s bufs = 0 := by
  induction bufs with
  | nil => intro s _; rfl
  | cons b rest ih =>
    intro s h
    unfold workerStarts
    dsimp only
    have h2 := feed_thread_mono s b h
    rw [ih _ h2]
    simp [h]

lemma feed_alsa_closed (s : Plugin) (b : Option (List Byte))
    (h : s.handle = false) :
    feed_alsa s b = (FlResponse.error "NOT_INITIALIZED", s) := by
  unfold feed_alsa
  rw [h]
  simp

/-- setup never touches the sample queue, and it can only leave the handle
closed when it was already closed (the missing-args and open-failure
branches leave `handle` untouched; all later branches have set it). -/
lemma setup_alsa_state (s : Plugin) (srv chv : Option Int) (dev : AlsaOp → Int) :
    (setup_alsa s srv chv dev).2.1.samples = s.samples ∧
    ((setup_alsa s srv chv dev).2.1.handle = false → s.handle = false) := by
  rcases srv with _ | rate
  · rcases chv with _ | ch
    · exact ⟨rfl, fun h => h⟩
    · exact ⟨rfl, fun h => h⟩
  · rcases chv with _ | ch
    · exact ⟨rfl, fun h => h⟩
    · unfold setup_alsa
      dsimp only
      by_cases h0 : dev AlsaOp.pcm_open < 0
      · rw [if_pos h0]
        exact ⟨rfl, fun h => h⟩
      rw [if_neg h0]
      by_cases h1 : dev AlsaOp.set_access < 0
      · rw [if_pos h1]
        exact ⟨rfl, fun h => Bool.noConfusion h⟩
      rw [if_neg h1]
      by_cases h2 : dev AlsaOp.set_format < 0
      · rw [if_pos h2]
        exact ⟨rfl, fun h => Bool.noConfusion h⟩
      rw [if_neg h2]
      by_cases h3 : dev AlsaOp.set_rate_near < 0
      · rw [if_pos h3]
        exact ⟨rfl, fun h => Bool.noConfusion h⟩
      rw [if_neg h3]
      by_cases h4 : dev AlsaOp.set_channels < 0
      · rw [if_pos h4]
        exact ⟨rfl, fun h => Bool.noConfusion h⟩
      rw [if_neg h4]
      by_cases h5 : dev AlsaOp.set_buffer_size_near < 0
      · rw [if_pos h5]
        exact ⟨rfl, fun h => Bool.noConfusion h⟩
      rw [if_neg h5]
      by_cases h6 : dev AlsaOp.set_period_size_near < 0
      · rw [if_pos h6]
        exact ⟨rfl, fun h => Bool.noConfusion h⟩
      rw [if_neg h6]
      by_cases h7 : dev AlsaOp.hw_params_commit < 0
      · rw [if_pos h7]
        exact ⟨rfl, fun h => Bool.noConfusion h⟩
      rw [if_neg h7]
      by_cases h8 : dev AlsaOp.set_start_threshold < 0
      · rw [if_pos h8]
        exact ⟨rfl, fun h => Bool.noConfusion h⟩
      rw [if_neg h8]
      by_cases h9 : dev AlsaOp.set_avail_min < 0
      · rw [if_pos h9]
        exact ⟨rfl, fun h => Bool.noConfusion h⟩
      rw [if_neg h9]
      by_cases h10 : dev AlsaOp.sw_params_commit < 0
      · rw [if_pos h10]
        exact ⟨rfl, fun h => Bool.noConfusion h⟩
      rw [if_neg h10]
      by_cases h11 : dev AlsaOp.pcm_prepare < 0
      · rw [if_pos h11]
        exact ⟨rfl, fun h => Bool.noConfusion h⟩
      rw [if_neg h11]
      exact ⟨rfl, fun h => Bool.noConfusion h⟩

/-! ## Reachability invariant for release -/

/-- The invariant "no open handle implies an empty queue" holds in the
initial state and is preserved by feed, release, setFeedThreshold, setup
and every worker iteration, so it holds in every reachable state (it is
the hypothesis of the release theorem below). -/
lemma closed_handle_empty_queue_invariant :
    (initPlugin.handle = false → initPlugin.samples = []) ∧
    (∀ (s : Plugin) (b : Option (List Byte)), (s.handle = false → s.samples = []) →
      ((feed_alsa s b).2.handle = false → (feed_alsa s b).2.samples = [])) ∧
    (∀ s : Plugin, (s.handle = false → s.samples = []) →
      ((release_alsa s).2.handle = false → (release_alsa s).2.samples = [])) ∧
    (∀ (s : Plugin) (t : Option Int), (s.handle = false → s.samples = []) →
      ((handle_setFeedThreshold s t).2.handle = false →
        (handle_setFeedThreshold s t).2.samples = [])) ∧
    (∀ (s : Plugin) (srv chv : Option Int) (dev : AlsaOp → Int),
      (s.handle = false → s.samples = []) →
      ((setup_alsa s srv chv dev).2.1.handle = false →
        (setup_alsa s srv chv dev).2.1.samples = [])) ∧
    (∀ (s : Plugin) (e : Nat) (o : WriteOutcome), (s.handle = false → s.samples = []) →
      ((iterate s e o).1.handle = false → (iterate s e o).1.samples = [])) := by
  refine ⟨fun _ => rfl, ?_, ?_, ?_, ?_, ?_⟩
  · intro s b hinv h0
    by_cases hh : s.handle = false
    · rw [feed_alsa_closed s b hh]
      exact hinv hh
    · rw [feed_alsa_handle] at h0
      exact absurd h0 hh
  · intro s hinv h0
    unfold release_alsa at h0 ⊢
    by_cases hh : s.handle = true
    · simp [hh]
    · simp only [hh, if_false] at h0 ⊢
      exact hinv h0
  · intro s t hinv h0
    cases t
    · exact hinv h0
    · exact hinv h0
  · intro s srv chv dev hinv h0
    have hs := setup_alsa_state s srv chv dev
    rw [hs.1]
    exact hinv (hs.2 h0)
  · intro s e o hinv h0
    have hhandle : (iterate s e o).1.handle = s.handle := (iterate_fields s e o).2.1
    rw [hhandle] at h0
    have hs := hinv h0
    by_cases hl : s.did_invoke_feed_callback = false
    · rw [iterate_empty_unlatched s e o hs hl]
      exact hs
    · have hl2 : s.did_invoke_feed_callback = true := by
        cases h : s.did_invoke_feed_callback
        · exact absurd h hl
        · rfl
      rw [iterate_empty_latched s e o hs hl2]
      exact hs

/-! ## Claim theorems -/

/-- C3: within one setup/release cycle the worker thread is started exactly
once, by the first feed; a feed issued while a worker object already exists
does not spawn another. -/
theorem c3_single_worker_start (s : Plugin) (b : List Byte)
    (bufs : List (List Byte)) (hh : s.handle = true)
    (ht : s.playback_thread = false) :
    workerStarts s (b :: bufs) = 1 ∧
    ∀ (s2 : Plugin) (bufs2 : List (List Byte)),
      s2.playback_thread = true → workerStarts s2 bufs2 = 0 := by
  constructor
  · unfold workerStarts
    dsimp only
    have hf := feed_alsa_of_handle s (some b) hh
    rw [workerStarts_running bufs _ hf.2.2.2.1]
    simp [ht, hf.2.2.2.1]
  · intro s2 bufs2 h
    exact workerStarts_running bufs2 s2 h

/-- C3 witness: three rapid feeds on a fresh session start exactly one
worker; a feed while a worker runs starts none. -/
theorem c3_single_worker_start_witness :
    workerStarts sReady [[5], [6], [7]] = 1 ∧ workerStarts sThread [[9]] = 0 :=
  ⟨(c3_single_worker_start sReady [5] [[6], [7]] rfl rfl).1,
   (c3_single_worker_start sReady [5] [[6], [7]] rfl rfl).2 sThread [[9]] rfl⟩

/-- C4: release always returns success, leaves the queue empty and the
session closed, and a second release right after is a no-op returning
success (idempotence).  The hypothesis holds in every reachable state by
`closed_handle_empty_queue_invariant`. -/
theorem c4_release_idempotent (s : Plugin)
    (hinv : s.handle = false → s.samples = []) :
    (release_alsa s).1 = FlResponse.success true ∧
    ((release_alsa s).2).samples = [] ∧
    ((release_alsa s).2).handle = false ∧
    release_alsa ((release_alsa s).2) = (FlResponse.success true, (release_alsa s).2) := by
  by_cases hh : s.handle = true
  · by_cases hp : s.playback_thread = true <;> simp [release_alsa, hh, hp]
  · have h0 : s.handle = false := by
      cases h : s.handle
      · rfl
      · exact absurd h hh
    have hs := hinv h0
    simp [release_alsa, h0, hs]

/-- C4 witness: release on the freshly initialised plugin (no prior setup)
succeeds and leaves the queue empty and the session closed. -/
theorem c4_release_idempotent_witness :
    (release_alsa initPlugin).1 = FlResponse.success true ∧
    ((release_alsa initPlugin).2).samples = [] ∧
    ((release_alsa initPlugin).2).handle = false ∧
    release_alsa ((release_alsa initPlugin).2)
      = (FlResponse.success true, (release_alsa initPlugin).2) :=
  c4_release_idempotent initPlugin (fun _ => rfl)

/-- C7 (amended): setup validates only the presence of its two arguments
(positivity is not checked); whenever `sample_rate` or `num_channels` is
missing it fails with the missing-args error response (code `"DEBUG"`,
message "Missing args", the spec's `MissingArgs`), leaves the state
untouched and performs no device I/O (empty ALSA-call trace). -/
theorem c7_missing_args_no_device_call (s : Plugin) (srv chv : Option Int)
    (dev : AlsaOp → Int) (h : srv = none ∨ chv = none) :
    setup_alsa s srv chv dev = (FlResponse.error "DEBUG", s, []) := by
  rcases h with h | h
  · subst h
    cases chv <;> rfl
  · subst h
    cases srv <;> rfl

/-- C7 witness: setup with `num_channels` absent returns the missing-args
error and makes no ALSA call. -/
theorem c7_missing_args_no_device_call_witness :
    setup_alsa initPlugin (some 44100) none (fun _ => 0)
      = (FlResponse.error "DEBUG", initPlugin, []) :=
  c7_missing_args_no_device_call initPlugin (some 44100) none (fun _ => 0) (Or.inr rfl)

/-- C7 counterexample: both arguments present but zero (not positive) are
accepted — setup does not fail and it opens the device, so positivity is
not validated and non-positive arguments reach device I/O. -/
theorem c7_counterexample :
    (setup_alsa initPlugin (some 0) (some 0) (fun _ => 0)).1
      = FlResponse.success true ∧
    AlsaOp.pcm_open ∈ (setup_alsa initPlugin (some 0) (some 0) (fun _ => 0)).2.2 := by
  decide

/-- C8: feed with no open session fails with `NOT_INITIALIZED` and returns
the state unchanged: the queue is untouched and no worker is started. -/
theorem c8_feed_without_setup (s : Plugin) (buffer : Option (List Byte))
    (h : s.handle = false) :
    feed_alsa s buffer = (FlResponse.error "NOT_INITIALIZED", s) := by
  unfold feed_alsa
  rw [h]
  simp

/-- C8 witness: feed of two bytes on the freshly initialised plugin fails
with `NOT_INITIALIZED` and changes nothing. -/
theorem c8_feed_without_setup_witness :
    feed_alsa initPlugin (some [1, 2]) = (FlResponse.error "NOT_INITIALIZED", initPlugin) :=
  c8_feed_without_setup initPlugin (some [1, 2]) rfl

/-- C9: feed does not validate its buffer argument: with a session open and
the `"buffer"` key absent, the null lookup result flows into the byte
extraction (`fl_value_get_uint8_list` on `none`) and the call still returns
success — no missing-argument error branch exists in `feed_alsa`. -/
theorem c9_feed_no_buffer_validation (s : Plugin) (h : s.handle = true) :
    (feed_alsa s none).1 = FlResponse.success true ∧
    ((feed_alsa s none).2).samples = s.samples ++ fl_value_get_uint8_list none := by
  have hf := feed_alsa_of_handle s none h
  exact ⟨hf.1, hf.2.1⟩

/-- C9 witness: feed with no buffer key on an open session returns success
and appends nothing. -/
theorem c9_feed_no_buffer_validation_witness :
    (feed_alsa sReady none).1 = FlResponse.success true ∧
    ((feed_alsa sReady none).2).samples
      = sReady.samples ++ fl_value_get_uint8_list none :=
  c9_feed_no_buffer_validation sReady rfl

/-! ## Count helpers for the remaining claims -/

lemma writeiCount_append (l1 l2 : List Ev) :
    writeiCount (l1 ++ l2) = writeiCount l1 + writeiCount l2 :=
  List.countP_append _ _ _

lemma sleepCount_append (l1 l2 : List Ev) :
    sleepCount (l1 ++ l2) = sleepCount l1 + sleepCount l2 :=
  List.countP_append _ _ _

lemma yieldCount_append (l1 l2 : List Ev) :
    yieldCount (l1 ++ l2) = yieldCount l1 + yieldCount l2 :=
  List.countP_append _ _ _

lemma writeiCount_replicate (n : Nat) :
    writeiCount (List.replicate n Ev.writeiCall) = n := by
  unfold writeiCount
  induction n with
  | zero => rfl
  | succ n ih => simp [List.replicate_succ, List.countP_cons, ih]

lemma sleepCount_replicate_writei (n : Nat) :
    sleepCount (List.replicate n Ev.writeiCall) = 0 := by
  unfold sleepCount
  induction n with
  | zero => rfl
  | succ n ih => simp [List.replicate_succ, List.countP_cons, ih]

lemma yieldCount_replicate_writei (n : Nat) :
    yieldCount (List.replicate n Ev.writeiCall) = 0 := by
  unfold yieldCount
  induction n with
  | zero => rfl
  | succ n ih => simp [List.replicate_succ, List.countP_cons, ih]

lemma writeiCount_sigEvsOf (s : Plugin) : writeiCount (sigEvsOf s) = 0 := by
  unfold sigEvsOf
  split <;> rfl

lemma sleepCount_sigEvsOf (s : Plugin) : sleepCount (sigEvsOf s) = 0 := by
  unfold sigEvsOf
  split <;> rfl

lemma yieldCount_sigEvsOf (s : Plugin) : yieldCount (sigEvsOf s) = 0 := by
  unfold sigEvsOf
  split <;> rfl

/-- C1 (amended): provided every fed buffer is a whole number of frames and
every device write succeeds, the bytes delivered to the device concatenated
across all writes, followed by the bytes still queued, equal the
concatenation b1 ++ b2 ++ ... of all fed buffers in order, for every
interleaving of feeds and worker iterations; in particular once the queue
has drained the delivered bytes equal the fed bytes exactly.  (Without the
frame-alignment proviso the code drops a trailing partial frame of a chunk
— see the counterexample.) -/
theorem c1_fifo_order (acts : List Act) (r : RunSt) (hch : channelsOk r.plug)
    (hh : r.plug.handle = true) (hs0 : r.plug.samples = [])
    (hacts : ∀ a ∈ acts, okAct (frameBytes r.plug) a = true) :
    writtenBytes (runActs r acts).2 ++ ((runActs r acts).1).plug.samples
      = fedBytes acts := by
  have h := runActs_fifo acts r hch hh (by rw [hs0]; simp) hacts
  rw [hs0] at h
  simpa using h

/-- C1 witness: feed one frame of two bytes, one successful write: the
device receives exactly those bytes and the queue is empty. -/
theorem c1_fifo_order_witness :
    writtenBytes (runActs rReady [Act.feed [1, 2], Act.work 0 WriteOutcome.ok]).2
      ++ ((runActs rReady [Act.feed [1, 2], Act.work 0 WriteOutcome.ok]).1).plug.samples
      = fedBytes [Act.feed [1, 2], Act.work 0 WriteOutcome.ok] :=
  c1_fifo_order [Act.feed [1, 2], Act.work 0 WriteOutcome.ok] rReady
    (by constructor <;> decide) rfl rfl (by decide)

/-- C1 counterexample: one channel (frame = 2 bytes), feed of 3 bytes.  The
worker pops all 3 bytes but `snd_pcm_writei` is passed `3 / 2 = 1` frame,
so the device receives only `[1, 2]`; the queue is empty and the third
byte is gone — the delivered concatenation does not equal the fed
concatenation. -/
theorem c1_counterexample :
    writtenBytes (runActs rReady [Act.feed [1, 2, 3], Act.work 0 WriteOutcome.ok]).2
      = [1, 2] ∧
    ((runActs rReady [Act.feed [1, 2, 3], Act.work 0 WriteOutcome.ok]).1).plug.samples
      = [] ∧
    fedBytes [Act.feed [1, 2, 3], Act.work 0 WriteOutcome.ok] = [1, 2, 3] ∧
    writtenBytes (runActs rReady [Act.feed [1, 2, 3], Act.work 0 WriteOutcome.ok]).2
      ≠ fedBytes [Act.feed [1, 2, 3], Act.work 0 WriteOutcome.ok] := by
  decide

/-- C2: for a fixed threshold, each depletion/refill cycle — a feed of a
nonempty buffer followed by successful worker iterations that drain the
queue before the next feed — dispatches exactly one OnFeedSamples signal,
across three consecutive cycles: the feed resets the latch and the first
iteration whose post-pop remaining count is at or below the threshold fires
exactly once. -/
theorem c2_one_signal_per_cycle (r : RunSt) (b1 b2 b3 : List Byte)
    (n1 n2 n3 : Nat) (hh : r.plug.handle = true)
    (hss : r.plug.should_stop = false) (hex : r.exited = false)
    (hb1 : b1 ≠ []) (hb2 : b2 ≠ []) (hb3 : b3 ≠ [])
    (hd1 : ((episode r b1 n1).1).plug.samples = [])
    (hd2 : ((episode (episode r b1 n1).1 b2 n2).1).plug.samples = [])
    (hd3 : ((episode (episode (episode r b1 n1).1 b2 n2).1 b3 n3).1).plug.samples = []) :
    sigCount (episode r b1 n1).2 = 1 ∧
    sigCount (episode (episode r b1 n1).1 b2 n2).2 = 1 ∧
    sigCount (episode (episode (episode r b1 n1).1 b2 n2).1 b3 n3).2 = 1 := by
  have p1 := episode_preserves r b1 n1 hh hss hex
  have p2 := episode_preserves (episode r b1 n1).1 b2 n2 p1.1 p1.2.1 p1.2.2
  exact ⟨episode_fires_once r b1 n1 hh hss hex hb1 hd1,
    episode_fires_once (episode r b1 n1).1 b2 n2 p1.1 p1.2.1 p1.2.2 hb2 hd2,
    episode_fires_once (episode (episode r b1 n1).1 b2 n2).1 b3 n3
      p2.1 p2.2.1 p2.2.2 hb3 hd3⟩

/-- C2 witness: three feed-then-drain cycles of one frame each on a fresh
session fire exactly one signal per cycle. -/
theorem c2_one_signal_per_cycle_witness :
    sigCount (episode rReady [0, 0] 1).2 = 1 ∧
    sigCount (episode (episode rReady [0, 0] 1).1 [0, 0] 1).2 = 1 ∧
    sigCount (episode (episode (episode rReady [0, 0] 1).1 [0, 0] 1).1 [0, 0] 1).2 = 1 :=
  c2_one_signal_per_cycle rReady [0, 0] [0, 0] [0, 0] 1 1 1 rfl rfl rfl
    (by decide) (by decide) (by decide) (by decide) (by decide) (by decide)

/-- C5 (amended): on a recoverable underrun the worker calls
`snd_pcm_recover` and `snd_pcm_prepare` and then `continue`s with the next
chunk: the pending chunk — already removed from the queue — is NOT
re-issued, so its bytes are lost (no write event carries them); on a failed
recovery the worker breaks out of the loop (Stopped). -/
theorem c5_recovery_discards_chunk (s : Plugin) (e : Nat)
    (hch : channelsOk s) (hs : s.samples ≠ []) :
    (iterate s e WriteOutcome.underrunRecovered).2.2 = LoopCtl.next ∧
    ((iterate s e WriteOutcome.underrunRecovered).1).samples
      = s.samples.drop (bytes_to_take s) ∧
    writtenBytes (iterate s e WriteOutcome.underrunRecovered).2.1 = [] ∧
    Ev.recoverCall ∈ (iterate s e WriteOutcome.underrunRecovered).2.1 ∧
    Ev.prepareCall ∈ (iterate s e WriteOutcome.underrunRecovered).2.1 ∧
    (iterate s e WriteOutcome.underrunFatal).2.2 = LoopCtl.brk := by
  rw [iterate_nonempty_recovered s e hch hs,
      iterate_nonempty_underrunFatal s e hch hs]
  refine ⟨rfl, postState_samples s, ?_, ?_, ?_, rfl⟩
  · simp [writtenBytes_append, writtenBytes_sigEvsOf,
      writtenBytes_replicate_writei, writtenBytes]
  · simp
  · simp

/-- C5 witness: a pending 4-byte queue, one recovered underrun: the loop
continues, the queue loses the chunk, nothing is written, and recovery and
prepare were invoked; a failed recovery breaks the loop. -/
theorem c5_recovery_discards_chunk_witness :
    (iterate sPend 0 WriteOutcome.underrunRecovered).2.2 = LoopCtl.next ∧
    ((iterate sPend 0 WriteOutcome.underrunRecovered).1).samples
      = sPend.samples.drop (bytes_to_take sPend) ∧
    writtenBytes (iterate sPend 0 WriteOutcome.underrunRecovered).2.1 = [] ∧
    Ev.recoverCall ∈ (iterate sPend 0 WriteOutcome.underrunRecovered).2.1 ∧
    Ev.prepareCall ∈ (iterate sPend 0 WriteOutcome.underrunRecovered).2.1 ∧
    (iterate sPend 0 WriteOutcome.underrunFatal).2.2 = LoopCtl.brk :=
  c5_recovery_discards_chunk sPend 0 (by constructor <;> decide) (by decide)

/-- C5 counterexample: the queue holds `[1,2,3,4]`; the write underruns and
`snd_pcm_recover`/`snd_pcm_prepare` succeed (both calls appear in the
trace, the loop continues), yet neither this iteration nor three further
iterations ever deliver those bytes: the pending chunk was discarded, not
re-issued. -/
theorem c5_counterexample :
    (iterate sPend 0 WriteOutcome.underrunRecovered).2.2 = LoopCtl.next ∧
    Ev.recoverCall ∈ (iterate sPend 0 WriteOutcome.underrunRecovered).2.1 ∧
    Ev.prepareCall ∈ (iterate sPend 0 WriteOutcome.underrunRecovered).2.1 ∧
    ((iterate sPend 0 WriteOutcome.underrunRecovered).1).samples = [] ∧
    writtenBytes ((iterate sPend 0 WriteOutcome.underrunRecovered).2.1
      ++ (runActs { plug := (iterate sPend 0 WriteOutcome.underrunRecovered).1,
                    exited := false } (workSteps 3)).2) = [] := by
  decide

/-- C6 (amended): the idle branch re-polls immediately — an empty-queue
iteration emits no event at all (no bounded wait, no yield) and continues;
no branch of the loop ever sleeps or yields; and the device-busy retry loop
is uncapped: `e` consecutive EAGAIN returns cause exactly `e + 1`
`snd_pcm_writei` calls in one iteration, for every `e`. -/
theorem c6_busy_spin_uncapped_retry :
    (∀ (s : Plugin) (e : Nat) (o : WriteOutcome), s.samples = [] →
      (iterate s e o).2.1 = [] ∧ (iterate s e o).2.2 = LoopCtl.next) ∧
    (∀ (s : Plugin) (e : Nat) (o : WriteOutcome),
      sleepCount (iterate s e o).2.1 = 0 ∧ yieldCount (iterate s e o).2.1 = 0) ∧
    (∀ (s : Plugin) (e : Nat), channelsOk s → s.samples ≠ [] →
      writeiCount (iterate s e WriteOutcome.ok).2.1 = e + 1) := by
  refine ⟨?_, ?_, ?_⟩
  · intro s e o hsamp
    by_cases hl : s.did_invoke_feed_callback = false
    · rw [iterate_empty_unlatched s e o hsamp hl]
      exact ⟨rfl, rfl⟩
    · have hl2 : s.did_invoke_feed_callback = true := by
        cases h : s.did_invoke_feed_callback
        · exact absurd h hl
        · rfl
      rw [iterate_empty_latched s e o hsamp hl2]
      exact ⟨rfl, rfl⟩
  · intro s e o
    unfold iterate
    dsimp only
    split
    · split <;> exact ⟨rfl, rfl⟩
    · split
      · exact ⟨sleepCount_sigEvsOf s, yieldCount_sigEvsOf s⟩
      · split <;>
          constructor <;>
          · simp only [sleepCount_append, yieldCount_append, sleepCount_sigEvsOf,
              yieldCount_sigEvsOf, sleepCount_replicate_writei,
              yieldCount_replicate_writei]
            all_goals rfl
  · intro s e hch hs
    rw [iterate_nonempty_ok s e hch hs]
    dsimp only
    rw [writeiCount_append, writeiCount_append, writeiCount_sigEvsOf,
      writeiCount_replicate]
    have h0 : writeiCount [Ev.write (List.take
        ((chunkOf s).length / frameBytes s * frameBytes s) (chunkOf s))] = 0 := rfl
    omega

/-- C6 witness: an idle iteration on an empty queue emits no events; five
EAGAIN responses on a 4-byte queue cause six writei calls with no sleep and
no yield. -/
theorem c6_busy_spin_uncapped_retry_witness :
    (iterate sReady 0 WriteOutcome.ok).2.1 = [] ∧
    sleepCount (iterate sPend 5 WriteOutcome.ok).2.1 = 0 ∧
    writeiCount (iterate sPend 5 WriteOutcome.ok).2.1 = 5 + 1 :=
  ⟨(c6_busy_spin_uncapped_retry.1 sReady 0 WriteOutcome.ok rfl).1,
   (c6_busy_spin_uncapped_retry.2.1 sPend 5 WriteOutcome.ok).1,
   c6_busy_spin_uncapped_retry.2.2 sPend 5 (by constructor <;> decide) (by decide)⟩

/-- C6 counterexample: a concrete empty-queue iteration performs NO bounded
wait and NO yield — it emits no event at all and immediately re-polls
(`continue` with no sleep), refuting "in every iteration where the queue is
empty it performs a bounded wait or yield". -/
theorem c6_counterexample :
    sReady.samples = [] ∧
    iterate sReady 0 WriteOutcome.ok
      = ({ sReady with did_invoke_feed_callback := true }, [], LoopCtl.next) ∧
    sleepCount (iterate sReady 0 WriteOutcome.ok).2.1 = 0 ∧
    yieldCount (iterate sReady 0 WriteOutcome.ok).2.1 = 0 := by
  decide

/-- C10 (amended): setFeedThreshold stores any integer, negative included,
without validation; the low-watermark comparison converts the signed
threshold to `size_t`, so for every negative threshold in `int` range the
converted value exceeds any realistic remaining-frame count and the
condition `remaining <= threshold` holds after every pop; consequently the
signal fires at the FIRST depletion check of each depletion episode
regardless of how full the queue is (the once-per-episode latch still
suppresses repeats, so it does not fire at every check — see the
counterexample). -/
theorem c10_negative_threshold (t : Int) (h0 : -2 ^ 31 ≤ t) (h1 : t < 0) :
    (∀ s : Plugin, handle_setFeedThreshold s (some t)
        = (FlResponse.success true, { s with feed_threshold := t })) ∧
    (∀ remaining : Nat, remaining ≤ 2 ^ 63 → remaining ≤ toSizeT t) ∧
    (∀ s : Plugin, s.feed_threshold = t → s.did_invoke_feed_callback = false →
      s.samples.length ≤ 2 ^ 40 → fireSignal s = true) := by
  have key : ∀ remaining : Nat, remaining ≤ 2 ^ 63 → remaining ≤ toSizeT t := by
    intro rem hrem
    have hb : -2 ^ 63 ≤ t := by
      have hcmp : -(2 : Int) ^ 63 ≤ -(2 : Int) ^ 31 := by norm_num
      linarith
    rw [toSizeT_of_neg hb h1]
    have h64 : ((2 : Int) ^ 64) = 18446744073709551616 := by norm_num
    have h31 : ((2 : Int) ^ 31) = 2147483648 := by norm_num
    have h63 : (2 : Nat) ^ 63 = 9223372036854775808 := by norm_num
    rw [h64]
    rw [h31] at h0
    rw [h63] at hrem
    omega
  refine ⟨fun s => rfl, key, ?_⟩
  intro s ht hl hlen
  unfold fireSignal
  rw [hl, ht]
  have hle : remaining_frames s ≤ toSizeT t := by
    apply key
    have hd : remaining_frames s ≤ s.samples.length := by
      unfold remaining_frames
      have hd1 : (s.samples.drop (bytes_to_take s)).length ≤ s.samples.length := by
        rw [List.length_drop]
        omega
      exact le_trans (Nat.div_le_self _ _) hd1
    have hcmp : (2 : Nat) ^ 40 ≤ 2 ^ 63 := by norm_num
    omega
  simp [hle]

/-- C10 witness: threshold -5 is accepted and stored; a million remaining
frames still compare at or below it after conversion; the comparison fires
on a 4-byte queue. -/
theorem c10_negative_threshold_witness :
    handle_setFeedThreshold sReady (some (-5))
      = (FlResponse.success true, { sReady with feed_threshold := -5 }) ∧
    (1000000 : Nat) ≤ toSizeT (-5) ∧
    fireSignal { sReady with samples := [1, 2, 3, 4], feed_threshold := -5 } = true :=
  ⟨(c10_negative_threshold (-5) (by norm_num) (by norm_num)).1 sReady,
   (c10_negative_threshold (-5) (by norm_num) (by norm_num)).2.1 1000000 (by norm_num),
   (c10_negative_threshold (-5) (by norm_num) (by norm_num)).2.2
     { sReady with samples := [1, 2, 3, 4], feed_threshold := -5 }
     rfl rfl (by norm_num)⟩

/-- C10 counterexample: threshold -1, queue of 4097 bytes (one channel).
The first pop leaves 1 byte; the converted threshold is 2^64 - 1, the
comparison holds, the signal fires.  On the second pop the comparison still
holds — every depletion check passes — yet no signal fires because the
latch is set: so the claim's "the feed signal fires on each depletion
check" is false at the second check. -/
theorem c10_counterexample :
    remaining_frames sNegThr ≤ toSizeT sNegThr.feed_threshold ∧
    sigCount (iterate sNegThr 0 WriteOutcome.ok).2.1 = 1 ∧
    ((iterate sNegThr 0 WriteOutcome.ok).1).samples ≠ [] ∧
    remaining_frames ((iterate sNegThr 0 WriteOutcome.ok).1)
      ≤ toSizeT ((iterate sNegThr 0 WriteOutcome.ok).1).feed_threshold ∧
    sigCount (iterate ((iterate sNegThr 0 WriteOutcome.ok).1) 0 WriteOutcome.ok).2.1 = 0 := by
  have hch : channelsOk sNegThr := by constructor <;> decide
  have hne : sNegThr.samples ≠ [] := by
    show List.replicate 4097 (7 : Byte) ≠ []
    intro h
    have hlen := congrArg List.length h
    rw [List.length_replicate] at hlen
    exact absurd hlen (by decide)
  have hbtt : bytes_to_take sNegThr = 4096 := by
    unfold bytes_to_take
    have hbpw : bytesPerWrite sNegThr = 4096 := by decide
    rw [hbpw]
    show min 4096 (List.replicate 4097 (7 : Byte)).length = 4096
    rw [List.length_replicate]
    decide
  have hdropped : sNegThr.samples.drop (bytes_to_take sNegThr)
      = List.replicate 1 (7 : Byte) := by
    rw [hbtt]
    show List.drop 4096 (List.replicate 4097 (7 : Byte)) = _
    rw [List.drop_replicate]
  have hrem : remaining_frames sNegThr = 0 := by
    unfold remaining_frames
    rw [hdropped, List.length_replicate]
    decide
  have hfire : fireSignal sNegThr = true := by
    unfold fireSignal
    rw [hrem]
    decide
  have hiter1 := iterate_nonempty_ok sNegThr 0 hch hne
  have hs1 : (iterate sNegThr 0 WriteOutcome.ok).1 = postState sNegThr := by
    rw [hiter1]
  have hs1samp : (postState sNegThr).samples = List.replicate 1 (7 : Byte) := by
    rw [postState_samples, hdropped]
  have hs1latch : (postState sNegThr).did_invoke_feed_callback = true := by
    rw [postState_latch, hfire]
    rfl
  have hsig1 : sigCount (iterate sNegThr 0 WriteOutcome.ok).2.1 = 1 := by
    rw [hiter1]
    dsimp only
    rw [sigCount_append, sigCount_append, sigCount_sigEvsOf, hfire,
      sigCount_replicate_writei, sigCount_write]
    rfl
  have hrem1 : remaining_frames (postState sNegThr) = 0 := by
    unfold remaining_frames
    have hlen : ((postState sNegThr).samples.drop
        (bytes_to_take (postState sNegThr))).length ≤ 1 := by
      rw [List.length_drop, hs1samp, List.length_replicate]
      omega
    have hfb : frameBytes (postState sNegThr) = 2 := by
      rw [frameBytes_congr (postState_fields sNegThr).1]
      decide
    rw [hfb]
    omega
  refine ⟨?_, hsig1, ?_, ?_, ?_⟩
  · rw [hrem]
    exact Nat.zero_le _
  · rw [hs1, hs1samp]
    decide
  · rw [hs1, hrem1]
    exact Nat.zero_le _
  · rw [hs1]
    exact (iterate_latched (postState sNegThr) 0 WriteOutcome.ok hs1latch).1

end PcmSound
